import Mathlib

/-!
Shallow embedding of `src/salary_predictor_app.py` (a taxi-driver salary
predictor): the pay engine (per-shift metrics and the aggregate pay
breakdown), the commission-tier lookup, the 16th-to-15th pay-period rule,
CSV loading, and the close-period archival split.

Modelling conventions:
* times of day are `Time` (hour, minute); absolute instants inside one
  shift are minutes from midnight of the record's date (`ℕ`), with the
  overnight rollover adding 1440 minutes exactly as the Python code adds
  `timedelta(days=1)`;
* Python floats are modelled as exact rationals `ℚ`; `round(x, 2)` is
  `round2` (round to the nearest multiple of 1/100 — for the values this
  program produces, which are multiples of 1/60 or sums of multiples of
  1/100, the result never sits on a .005 tie, so this agrees with
  Python's float rounding);
* Python `int(x)` (truncation toward zero) is `pyInt`;
* pandas `Timestamp ± MonthBegin(1)` is `monthBeginAdd` / `monthBeginSub`
  (roll forward to the next month start / back to the most recent month
  start strictly before the date).
-/

namespace SalaryApp

/-- A wall-clock time of day, as parsed by `strptime "%H:%M"`. -/
structure Time where
  hour : ℕ
  minute : ℕ
deriving DecidableEq, Repr

/-- Minutes from midnight. -/
def Time.toMin (t : Time) : ℕ := t.hour * 60 + t.minute

/-- A calendar date, as parsed by `strptime "%Y-%m-%d"`. -/
structure Date where
  year : ℕ
  month : ℕ
  day : ℕ
deriving DecidableEq, Repr

/-- Lexicographic date comparison (what comparing parsed dates does). -/
def Date.le (a b : Date) : Prop :=
  a.year < b.year ∨ (a.year = b.year ∧
    (a.month < b.month ∨ (a.month = b.month ∧ a.day ≤ b.day)))

instance : DecidablePred fun p : Date × Date => Date.le p.1 p.2 := by
  intro p; unfold Date.le; infer_instance

instance (a b : Date) : Decidable (Date.le a b) := by
  unfold Date.le; infer_instance

/-- One shift record: `日付, 営収, 出庫時刻, 帰庫時刻`
(date, revenue, clock-out = shift start, clock-in = shift end). -/
structure ShiftRecord where
  date : Date
  revenue : ℕ
  clockOut : Time
  clockIn : Time
deriving DecidableEq, Repr

/-- Embedding of `out_time`: minutes from midnight of the record's date
(`datetime.strptime(f"{日付} {出庫時刻}")`). -/
def outMin (r : ShiftRecord) : ℕ := r.clockOut.toMin

/-- Embedding of `in_time`: minutes from midnight of the record's date, after the
overnight rollover: `if in_time <= out_time: in_time += timedelta(days=1)`. -/
def inMin (r : ShiftRecord) : ℕ :=
  if r.clockIn.toMin ≤ r.clockOut.toMin then r.clockIn.toMin + 1440
  else r.clockIn.toMin

/-- Embedding of `total_hours = (in_time - out_time).total_seconds() / 3600.0`. -/
def totalHours (r : ShiftRecord) : ℚ := ((inMin r - outMin r : ℕ) : ℚ) / 60

/-- The wall-clock hour of an instant given in minutes from midnight
(`current.hour` of the Python datetime). -/
def hourOf (m : ℕ) : ℕ := m / 60 % 24

/-- Whether an instant lies in the night window:
`current.hour >= 22 or current.hour < 5`. -/
def isNight (m : ℕ) : Bool := 22 ≤ hourOf m ∨ hourOf m < 5

/-- The body of the `while current < in_time` night-accrual loop, in whole
minutes: each 30-minute tick whose starting hour is in the night window adds
`min(current + 30, in_time) - current` minutes.  The extra fuel argument
makes the recursion structural; `nightMinutes` instantiates it with
`inn - current`, which `nightLoop_fuel_irrel` shows is enough fuel, so the
while-loop recurrence holds exactly (`nightMinutes_eq`). -/
def nightLoop : ℕ → ℕ → ℕ → ℕ
  | 0, _, _ => 0
  | fuel + 1, current, inn =>
    if current < inn then
      (if isNight current then min (current + 30) inn - current else 0)
        + nightLoop fuel (current + 30) inn
    else 0

/-- The `night_h` accumulation (`while current < in_time: ...`), in minutes. -/
def nightMinutes (current inn : ℕ) : ℕ := nightLoop (inn - current) current inn

theorem nightLoop_fuel_irrel (fuel fuel' current inn : ℕ)
    (h : inn - current ≤ fuel) (h' : inn - current ≤ fuel') :
    nightLoop fuel current inn = nightLoop fuel' current inn := by
  induction fuel generalizing fuel' current with
  | zero =>
    have : ¬ current < inn := by omega
    cases fuel' with
    | zero => rfl
    | succ f => simp [nightLoop, this]
  | succ f ih =>
    cases fuel' with
    | zero =>
      have : ¬ current < inn := by omega
      simp [nightLoop, this]
    | succ f' =>
      simp only [nightLoop]
      by_cases hlt : current < inn
      · simp only [hlt, if_true]
        have := ih f' (current + 30) (by omega) (by omega)
        omega
      · simp [hlt]

/-- The while-loop recurrence for `nightMinutes`. -/
theorem nightMinutes_eq (current inn : ℕ) :
    nightMinutes current inn =
      if current < inn then
        (if isNight current then min (current + 30) inn - current else 0)
          + nightMinutes (current + 30) inn
      else 0 := by
  unfold nightMinutes
  by_cases hlt : current < inn
  · have hd : inn - current = (inn - current - 1) + 1 := by omega
    rw [hd]
    simp only [nightLoop, hlt, if_true]
    have := nightLoop_fuel_irrel (inn - current - 1) (inn - (current + 30))
      (current + 30) inn (by omega) (by omega)
    omega
  · have hd : inn - current = 0 := by omega
    rw [hd]
    simp [nightLoop, hlt]

/-- Embedding of `round(x, 2)`: round to the nearest multiple of 1/100. -/
def round2 (q : ℚ) : ℚ := (round (q * 100) : ℚ) / 100

/-- Per-shift metrics (`computeShiftMetrics` of the spec): the per-record body of the aggregation loop,
returning `(深夜時間(h), 超過時間(h)) = (round(night_h, 2), round(over_h, 2))`. -/
def computeShiftMetrics (r : ShiftRecord) : ℚ × ℚ :=
  let night_h : ℚ := (nightMinutes (outMin r) (inMin r) : ℚ) / 60
  let over_h : ℚ := max 0 (totalHours r - 9)
  (round2 night_h, round2 over_h)

/-! ### Commission-tier selection -/

/-- Descending comparison on `(threshold, baseAmount)` pairs: the order in
which `sorted(rate_table.items(), reverse=True)` yields the tiers (tier
thresholds are unique — they are keys of a Python dict — so the second
component never decides a comparison). -/
def tierGE (a b : ℕ × ℕ) : Prop := b.1 ≤ a.1

instance : DecidableRel tierGE := fun a b => Nat.decLe b.1 a.1

instance : IsTotal (ℕ × ℕ) tierGE := ⟨fun a b => Nat.le_total b.1 a.1⟩

instance : IsTrans (ℕ × ℕ) tierGE := ⟨fun _ _ _ h1 h2 => le_trans h2 h1⟩

/-- Embedding of `sorted(rate_table.items(), reverse=True)`. -/
def sortTiersDesc (tiers : List (ℕ × ℕ)) : List (ℕ × ℕ) :=
  tiers.insertionSort tierGE

/-- The selection loop:
`base_pay = 0; for thr, amt in ...: if total_sales >= thr: base_pay = amt; break`. -/
def basePayLoop : List (ℕ × ℕ) → ℕ → ℕ
  | [], _ => 0
  | (thr, amt) :: rest, total_sales =>
    if thr ≤ total_sales then amt else basePayLoop rest total_sales

/-- Tier selection (`selectBasePay` of the spec): the loop run over the descending-sorted tier table. -/
def selectBasePay (tiers : List (ℕ × ℕ)) (total_sales : ℕ) : ℕ :=
  basePayLoop (sortTiersDesc tiers) total_sales

/-- The built-in `rate_table` dict, in its source (insertion) order. -/
def rate_table : List (ℕ × ℕ) :=
  [(900000, 508712), (850000, 471015), (800000, 438359), (750000, 404286),
   (700000, 369718), (650000, 329678), (600000, 288907), (550000, 252054),
   (500000, 211921), (450000, 170255), (400000, 122505)]

/-! ### Aggregate pay breakdown -/

/-- Python `int(x)`: truncation toward zero. -/
def pyInt (q : ℚ) : ℤ := if 0 ≤ q then ⌊q⌋ else -⌊-q⌋

/-- The figures printed by the 給与予測結果 (salary prediction) section. -/
structure PayBreakdown where
  total_sales : ℕ
  night_hours : ℚ
  over_hours : ℚ
  base_pay : ℕ
  night_pay : ℤ
  over_pay : ℤ
  total_pay : ℤ
  deduction : ℤ
  take_home : ℤ
deriving DecidableEq, Repr

/-- Aggregate breakdown (`computeBreakdown` of the spec): total revenue, summed per-shift metrics, tier base
pay, premiums `int(night_hours * 600)` / `int(over_hours * 250)`,
`total_pay`, `deduction = int(total_pay * 0.115)`, and
`take_home = total_pay - deduction`. -/
def computeBreakdown (records : List ShiftRecord) (tiers : List (ℕ × ℕ)) :
    PayBreakdown :=
  let total_sales := (records.map (·.revenue)).sum
  let night_hours := (records.map (fun r => (computeShiftMetrics r).1)).sum
  let over_hours := (records.map (fun r => (computeShiftMetrics r).2)).sum
  let base_pay := selectBasePay tiers total_sales
  let night_pay := pyInt (night_hours * 600)
  let over_pay := pyInt (over_hours * 250)
  let total_pay := (base_pay : ℤ) + night_pay + over_pay
  let deduction := pyInt ((total_pay : ℚ) * (0.115 : ℚ))
  let take_home := total_pay - deduction
  ⟨total_sales, night_hours, over_hours, base_pay, night_pay, over_pay,
    total_pay, deduction, take_home⟩

/-- One full recomputation pass, as triggered by any user interaction.  The
aggregation reads `ss.entries` into a fresh copied frame
(`pd.DataFrame(ss.entries).copy()`) and never writes back, so the pass
returns the breakdown together with the unchanged entry list. -/
def recomputePass (entries : List ShiftRecord) (tiers : List (ℕ × ℕ)) :
    PayBreakdown × List ShiftRecord :=
  (computeBreakdown entries tiers, entries)

/-! ### Pay period (16th → 15th) -/

/-- pandas `base + MonthBegin(1)`: roll forward to the next month start
(also from a month's first day). -/
def monthBeginAdd (d : Date) : Date :=
  if d.month = 12 then ⟨d.year + 1, 1, 1⟩ else ⟨d.year, d.month + 1, 1⟩

/-- pandas `base - MonthBegin(1)`: roll back to the most recent month start
strictly before `base` — the current month's first day when `base.day > 1`,
the previous month's first day when `base` is itself a month start. -/
def monthBeginSub (d : Date) : Date :=
  if 1 < d.day then ⟨d.year, d.month, 1⟩
  else if d.month = 1 then ⟨d.year - 1, 12, 1⟩
  else ⟨d.year, d.month - 1, 1⟩

/-- Embedding of `period_16to15(today)`: the (start, end) pair the app uses as the
active 16th-to-15th pay period. -/
def period_16to15 (today : Date) : Date × Date :=
  if 16 ≤ today.day then
    let end_m := monthBeginAdd today
    (⟨today.year, today.month, 16⟩, ⟨end_m.year, end_m.month, 15⟩)
  else
    let prev := monthBeginSub today
    (⟨prev.year, prev.month, 16⟩, ⟨today.year, today.month, 15⟩)

/-! ### CSV loading (`load_entries`) -/

/-- One row of the persisted CSV, read as strings
(`pd.read_csv(CSV_PATH, dtype=str)`), with any extra columns kept so that
the `df[COLUMNS]` restriction is visible in the model. -/
structure CsvRow where
  date : String
  revenue : String
  clockOut : String
  clockIn : String
  extra : List String
deriving DecidableEq, Repr

/-- One in-memory entry as `load_entries` produces it: the four fixed
columns with `営収` (revenue) coerced to an integer. -/
structure StoredEntry where
  date : String
  revenue : ℤ
  clockOut : String
  clockIn : String
deriving DecidableEq, Repr

/-- Decimal value of a digit string. -/
def digitsToNat (ds : List Char) : ℕ :=
  ds.foldl (fun n c => n * 10 + (c.toNat - 48)) 0

/-- pandas per-cell `astype(int)` on a string column: an optional minus
sign followed by decimal digits; anything else raises (modelled as
`none`). -/
def astypeInt (s : String) : Option ℤ :=
  match s.data with
  | [] => none
  | '-' :: ds =>
    if ds ≠ [] ∧ ds.all Char.isDigit then some (-(digitsToNat ds : ℤ))
    else none
  | ds => if ds.all Char.isDigit then some ((digitsToNat ds : ℤ)) else none

/-- The per-row effect of `df["営収"] = df["営収"].astype(int)` followed by
`df[COLUMNS]`: coerce the revenue column, failing on a non-numeric string,
and drop any extra column. -/
def parseRow (row : CsvRow) : Option StoredEntry :=
  (astypeInt row.revenue).map fun v => ⟨row.date, v, row.clockOut, row.clockIn⟩

/-- Column-wise coercion of the whole frame: `astype(int)` converts every
cell or raises — one bad cell fails the whole load. -/
def parseRows : List CsvRow → Option (List StoredEntry)
  | [] => some []
  | row :: rest =>
    match parseRow row, parseRows rest with
    | some e, some es => some (e :: es)
    | _, _ => none

/-- Embedding of `load_entries()`: `none` models an unreadable or unparsable file (the
`pd.read_csv` call raising); a row whose revenue fails integer coercion
makes `astype(int)` raise.  Either failure is caught by the
`except Exception` arm, which surfaces a warning and falls through to
`return []`. -/
def load_entries (file : Option (List CsvRow)) : List StoredEntry :=
  match file with
  | none => []
  | some rows =>
    match parseRows rows with
    | some entries => entries
    | none => []

/-! ### Closing a pay period (`do_close`) -/

/-- The membership test of the archive mask:
`(df_entries["日付_dt"] >= p_start) & (df_entries["日付_dt"] <= p_end)`. -/
def inPeriod (p_start p_end : Date) (r : ShiftRecord) : Bool :=
  decide (Date.le p_start r.date) && decide (Date.le r.date p_end)

/-- The `do_close` branch: if no record falls in the period, warn and do
nothing (`none`); otherwise write the masked rows to the archive file and
keep only the rows outside the mask
(`remain = df_entries.loc[~mask, COLUMNS]`). -/
def do_close (entries : List ShiftRecord) (p_start p_end : Date) :
    Option (List ShiftRecord × List ShiftRecord) :=
  let df_to_save := entries.filter (inPeriod p_start p_end)
  if df_to_save.isEmpty then none
  else some (df_to_save, entries.filter (fun r => ! inPeriod p_start p_end r))

/-- A time-of-day as `strptime "%H:%M"` produces it. -/
def Time.Valid (t : Time) : Prop := t.hour < 24 ∧ t.minute < 60

instance (t : Time) : Decidable t.Valid := by unfold Time.Valid; infer_instance

/-! ### Helper lemmas -/

theorem round2_nonneg {q : ℚ} (h : 0 ≤ q) : 0 ≤ round2 q := by
  unfold round2
  have h1 : (0 : ℤ) ≤ round (q * 100) := by
    rw [round_eq]
    exact_mod_cast Int.le_floor.mpr (by push_cast; linarith)
  positivity

theorem metrics_night_nonneg (r : ShiftRecord) : 0 ≤ (computeShiftMetrics r).1 := by
  unfold computeShiftMetrics
  exact round2_nonneg (by positivity)

theorem metrics_over_nonneg (r : ShiftRecord) : 0 ≤ (computeShiftMetrics r).2 := by
  unfold computeShiftMetrics
  exact round2_nonneg (le_max_left 0 _)

theorem pyInt_eq_floor {q : ℚ} (h : 0 ≤ q) : pyInt q = ⌊q⌋ := if_pos h

/-- The contribution of one 30-minute tick of the night-accrual loop. -/
def tickContrib (t inn : ℕ) : ℕ :=
  if isNight t then min (t + 30) inn - t else 0

theorem nightMinutes_eq_tickSum (out inn : ℕ) :
    nightMinutes out inn =
      ((List.range' out ((inn - out + 29) / 30) 30).map
        (fun t => tickContrib t inn)).sum := by
  have H : ∀ d out, inn - out ≤ d →
      nightMinutes out inn =
        ((List.range' out ((inn - out + 29) / 30) 30).map
          (fun t => tickContrib t inn)).sum := by
    intro d
    induction d with
    | zero =>
      intro out h
      have h1 : ¬ out < inn := by omega
      have h2 : (inn - out + 29) / 30 = 0 := by omega
      rw [nightMinutes_eq, if_neg h1, h2]
      simp
    | succ d ih =>
      intro out h
      by_cases hlt : out < inn
      · have h2 : (inn - out + 29) / 30 = (inn - (out + 30) + 29) / 30 + 1 := by
          omega
        rw [nightMinutes_eq, if_pos hlt, h2, List.range'_succ]
        rw [List.map_cons, List.sum_cons, ih (out + 30) (by omega)]
        rfl
      · have h2 : (inn - out + 29) / 30 = 0 := by omega
        rw [nightMinutes_eq, if_neg hlt, h2]
        simp
  exact H (inn - out) out le_rfl

theorem basePayLoop_of_none_qualify (total : ℕ) :
    ∀ l : List (ℕ × ℕ), (∀ t ∈ l, total < t.1) → basePayLoop l total = 0 := by
  intro l
  induction l with
  | nil => intro _; rfl
  | cons hd tl ih =>
    intro h
    obtain ⟨thr, amt⟩ := hd
    have hhd := h (thr, amt) (List.mem_cons_self _ _)
    simp only [basePayLoop, if_neg (by omega : ¬ thr ≤ total)]
    exact ih fun t ht => h t (List.mem_cons_of_mem _ ht)

theorem basePayLoop_first_qualifying (total : ℕ) (t : ℕ × ℕ) :
    ∀ l : List (ℕ × ℕ), l.Sorted tierGE → t ∈ l → t.1 ≤ total →
      ∃ u ∈ l, u.1 ≤ total ∧ basePayLoop l total = u.2 ∧
        ∀ v ∈ l, v.1 ≤ total → v.1 ≤ u.1 := by
  intro l
  induction l with
  | nil => intro _ ht _; cases ht
  | cons hd tl ih =>
    intro hsort ht hq
    have hs := List.pairwise_cons.mp hsort
    by_cases hhd : hd.1 ≤ total
    · refine ⟨hd, List.mem_cons_self _ _, hhd, ?_, ?_⟩
      · obtain ⟨thr, amt⟩ := hd
        simp only [basePayLoop, if_pos hhd]
      · intro v hv _
        rcases List.mem_cons.mp hv with rfl | hvtl
        · exact le_refl _
        · exact hs.1 v hvtl
    · have ht' : t ∈ tl := by
        rcases List.mem_cons.mp ht with rfl | h
        · exact absurd hq hhd
        · exact h
      obtain ⟨u, hu, h1, h2, h3⟩ := ih hs.2 ht' hq
      refine ⟨u, List.mem_cons_of_mem _ hu, h1, ?_, ?_⟩
      · obtain ⟨thr, amt⟩ := hd
        simp only [basePayLoop, if_neg hhd]
        exact h2
      · intro v hv hvq
        rcases List.mem_cons.mp hv with rfl | hvtl
        · exact absurd hvq hhd
        · exact h3 v hvtl hvq

theorem basePayLoop_mem (l : List (ℕ × ℕ)) (total : ℕ) :
    basePayLoop l total = 0 ∨ ∃ u ∈ l, basePayLoop l total = u.2 := by
  induction l with
  | nil => exact Or.inl rfl
  | cons hd tl ih =>
    obtain ⟨thr, amt⟩ := hd
    by_cases h : thr ≤ total
    · exact Or.inr ⟨(thr, amt), List.mem_cons_self _ _, by
        simp [basePayLoop, h]⟩
    · rcases ih with h0 | ⟨u, hu, he⟩
      · exact Or.inl (by simp [basePayLoop, h, h0])
      · exact Or.inr ⟨u, List.mem_cons_of_mem _ hu, by
          simp [basePayLoop, h, he]⟩

theorem basePayLoop_monotone :
    ∀ l : List (ℕ × ℕ), l.Pairwise (fun a b => b.2 ≤ a.2) →
      ∀ r1 r2 : ℕ, r1 ≤ r2 → basePayLoop l r1 ≤ basePayLoop l r2 := by
  intro l
  induction l with
  | nil => intro _ r1 r2 _; exact le_refl 0
  | cons hd tl ih =>
    intro hamt r1 r2 h12
    obtain ⟨hhd, htl⟩ := List.pairwise_cons.mp hamt
    obtain ⟨thr, amt⟩ := hd
    by_cases h1 : thr ≤ r1
    · simp only [basePayLoop, if_pos h1, if_pos (le_trans h1 h12)]
      exact le_refl amt
    · by_cases h2 : thr ≤ r2
      · simp only [basePayLoop, if_neg h1, if_pos h2]
        rcases basePayLoop_mem tl r1 with h0 | ⟨u, hu, he⟩
        · omega
        · rw [he]
          exact hhd u hu
      · simp only [basePayLoop, if_neg h1, if_neg h2]
        exact ih htl r1 r2 h12

theorem sortTiersDesc_rate_table : sortTiersDesc rate_table = rate_table := by
  decide

/-- Closed form of the built-in tier lookup. -/
theorem selectBasePay_rate_table (r : ℕ) :
    selectBasePay rate_table r =
      if 900000 ≤ r then 508712
      else if 850000 ≤ r then 471015
      else if 800000 ≤ r then 438359
      else if 750000 ≤ r then 404286
      else if 700000 ≤ r then 369718
      else if 650000 ≤ r then 329678
      else if 600000 ≤ r then 288907
      else if 550000 ≤ r then 252054
      else if 500000 ≤ r then 211921
      else if 450000 ≤ r then 170255
      else if 400000 ≤ r then 122505
      else 0 := by
  rw [selectBasePay, sortTiersDesc_rate_table]
  simp only [rate_table, basePayLoop]

/-! ### Claim theorems -/

/-- C1 (counterexample): on the record
`{date: 2024-06-01, revenue: 50000, clockOut: 17:00, clockIn: 03:30}` the
tick-sampling night hours are NOT 5.0 (they are 5.5: the night ticks run
22:00, 22:30, …, 03:00 — eleven half-hour contributions). -/
theorem C1_night_hours_ne_five :
    (computeShiftMetrics ⟨⟨2024, 6, 1⟩, 50000, ⟨17, 0⟩, ⟨3, 30⟩⟩).1 ≠ 5 := by
  have h : nightMinutes 1020 1650 = 330 := by decide
  simp only [computeShiftMetrics, totalHours, outMin, inMin, Time.toMin]
  norm_num [h, round2, round_eq]

/-- C1 (amended): for the record
`{date: 2024-06-01, revenue: 50000, clockOut: 17:00, clockIn: 03:30}`,
totalHours = 10.5, overtimeHours = 1.5, and the tick-sampling night hours
are 5.5. -/
theorem C1_shift_metrics_example :
    totalHours ⟨⟨2024, 6, 1⟩, 50000, ⟨17, 0⟩, ⟨3, 30⟩⟩ = 21 / 2 ∧
    computeShiftMetrics ⟨⟨2024, 6, 1⟩, 50000, ⟨17, 0⟩, ⟨3, 30⟩⟩ =
      (11 / 2, 3 / 2) := by
  constructor
  · norm_num [totalHours, outMin, inMin, Time.toMin]
  · have h : nightMinutes 1020 1650 = 330 := by decide
    simp only [computeShiftMetrics, totalHours, outMin, inMin, Time.toMin]
    norm_num [h, round2, round_eq, Prod.ext_iff]

/-- C2 (code bug): at `today = 2024-06-10` (day-of-month 10 < 16, and not
the 1st), `period_16to15` returns the inverted pair
(2024-06-16, 2024-06-15): the start is after the end and today lies
outside the returned period, contradicting the documented
16th-to-next-month-15th contract (the expected period is
(2024-05-16, 2024-06-15)). -/
theorem C2_period_bug_on_2024_06_10 :
    period_16to15 ⟨2024, 6, 10⟩ = (⟨2024, 6, 16⟩, ⟨2024, 6, 15⟩) ∧
    ¬ Date.le (period_16to15 ⟨2024, 6, 10⟩).1 (period_16to15 ⟨2024, 6, 10⟩).2 ∧
    ¬ (Date.le (period_16to15 ⟨2024, 6, 10⟩).1 ⟨2024, 6, 10⟩ ∧
       Date.le ⟨2024, 6, 10⟩ (period_16to15 ⟨2024, 6, 10⟩).2) := by
  refine ⟨by decide, by decide, by decide⟩

/-- C3: night hours accrue by walking `[start, end)` in 30-minute steps
from the shift start; a step contributes iff its starting wall-clock hour
is ≥ 22 or < 5, and a contributing step adds its overlap with the
interval, clamped at the interval end.  A step starting 21:45 contributes
nothing; a night step (e.g. starting 04:45) contributes its full clamped
length.  The per-record night figure is the accrued total rounded to 2
decimal places. -/
theorem C3_night_tick_sampling :
    (∀ out inn : ℕ, nightMinutes out inn =
        ((List.range' out ((inn - out + 29) / 30) 30).map
          (fun t => tickContrib t inn)).sum) ∧
    (∀ inn : ℕ, tickContrib (21 * 60 + 45) inn = 0) ∧
    (∀ t inn : ℕ, isNight t = true → tickContrib t inn = min (t + 30) inn - t) ∧
    (∀ r : ShiftRecord, (computeShiftMetrics r).1 =
        round2 ((nightMinutes (outMin r) (inMin r) : ℚ) / 60)) := by
  refine ⟨nightMinutes_eq_tickSum, ?_, ?_, ?_⟩
  · intro inn
    simp [tickContrib, isNight, hourOf]
  · intro t inn h
    simp [tickContrib, h]
  · intro r
    rfl

/-- C6: the shift-duration split.  With well-formed `%H:%M` times: when
clock-in's time-of-day is strictly later than clock-out's, the shift is
same-day and totalHours = clockIn − clockOut; otherwise (clock-in ≤
clock-out) the end rolls 24 h forward and totalHours =
(24:00 − clockOut) + clockIn; equal times give a 24-hour shift. -/
theorem C6_total_hours_split (r : ShiftRecord)
    (hout : r.clockOut.Valid) (hin : r.clockIn.Valid) :
    (r.clockOut.toMin < r.clockIn.toMin →
      totalHours r = (r.clockIn.toMin : ℚ) / 60 - (r.clockOut.toMin : ℚ) / 60) ∧
    (r.clockIn.toMin ≤ r.clockOut.toMin →
      totalHours r = (24 - (r.clockOut.toMin : ℚ) / 60) + (r.clockIn.toMin : ℚ) / 60) ∧
    (r.clockIn = r.clockOut → totalHours r = 24) := by
  obtain ⟨ho1, ho2⟩ := hout
  obtain ⟨hi1, hi2⟩ := hin
  have hob : r.clockOut.toMin < 1440 := by
    unfold Time.toMin; omega
  have hib : r.clockIn.toMin < 1440 := by
    unfold Time.toMin; omega
  refine ⟨?_, ?_, ?_⟩
  · intro hlt
    unfold totalHours inMin outMin
    rw [if_neg (by omega), Nat.cast_sub (le_of_lt hlt)]
    ring
  · intro hle
    unfold totalHours inMin outMin
    rw [if_pos hle, Nat.cast_sub (by omega : r.clockOut.toMin ≤ r.clockIn.toMin + 1440)]
    push_cast
    ring
  · intro heq
    unfold totalHours inMin outMin
    rw [heq, if_pos le_rfl]
    have : (r.clockOut.toMin + 1440 - r.clockOut.toMin : ℕ) = 1440 := by omega
    rw [this]
    norm_num

/-- C6 witness: the 17:00 → 03:30 record is overnight, totalHours
= (24 − 17) + 3.5 = 10.5. -/
theorem C6_witness :
    totalHours ⟨⟨2024, 6, 1⟩, 0, ⟨17, 0⟩, ⟨3, 30⟩⟩ =
      (24 - ((1020 : ℕ) : ℚ) / 60) + ((210 : ℕ) : ℚ) / 60 := by
  have h := (C6_total_hours_split ⟨⟨2024, 6, 1⟩, 0, ⟨17, 0⟩, ⟨3, 30⟩⟩
    (by decide) (by decide)).2.1 (by decide)
  simpa [Time.toMin] using h

/-- C7: a recomputation pass is a pure function of the record list and
tier table: running it twice in sequence yields identical breakdowns, and
the entry list it hands back is the one it was given, unchanged. -/
theorem C7_recompute_deterministic (entries : List ShiftRecord)
    (tiers : List (ℕ × ℕ)) :
    (recomputePass entries tiers).2 = entries ∧
    (recomputePass (recomputePass entries tiers).2 tiers).1 =
      (recomputePass entries tiers).1 ∧
    computeBreakdown entries tiers = computeBreakdown entries tiers :=
  ⟨rfl, rfl, rfl⟩


/-- C4: base-pay selection is Policy A (highest qualifying tier): with the
tiers considered in descending threshold order, the first tier whose
threshold the total revenue meets or exceeds supplies the base amount; if
no tier qualifies (in particular for an empty table) base pay is 0.
Against the built-in table, 900000 → 508712, 925000 → 508712, 0 → 0. -/
theorem C4_base_pay_policy_a :
    (∀ total_sales : ℕ, selectBasePay [] total_sales = 0) ∧
    (∀ (tiers : List (ℕ × ℕ)) (total_sales : ℕ),
      (∀ t ∈ tiers, total_sales < t.1) → selectBasePay tiers total_sales = 0) ∧
    (∀ (tiers : List (ℕ × ℕ)) (total_sales : ℕ) (t : ℕ × ℕ),
      t ∈ tiers → t.1 ≤ total_sales →
      ∃ u ∈ tiers, u.1 ≤ total_sales ∧ selectBasePay tiers total_sales = u.2 ∧
        ∀ v ∈ tiers, v.1 ≤ total_sales → v.1 ≤ u.1) ∧
    selectBasePay rate_table 900000 = 508712 ∧
    selectBasePay rate_table 925000 = 508712 ∧
    selectBasePay rate_table 0 = 0 := by
  refine ⟨fun _ => rfl, ?_, ?_, by decide, by decide, by decide⟩
  · intro tiers total_sales h
    exact basePayLoop_of_none_qualify total_sales _
      (fun t ht => h t ((List.mem_insertionSort tierGE).mp ht))
  · intro tiers total_sales t ht hq
    obtain ⟨u, hu, h1, h2, h3⟩ := basePayLoop_first_qualifying total_sales t
      (tiers.insertionSort tierGE) (List.sorted_insertionSort tierGE tiers)
      ((List.mem_insertionSort tierGE).mpr ht) hq
    exact ⟨u, (List.mem_insertionSort tierGE).mp hu, h1, h2,
      fun v hv hvq => h3 v ((List.mem_insertionSort tierGE).mpr hv) hvq⟩

/-- C4 witness: on the one-tier table [(100, 7)] a revenue of 150
qualifies for the tier and gets base pay 7. -/
theorem C4_witness : selectBasePay [(100, 7)] 150 = 7 := by
  obtain ⟨u, hu, _, heq, _⟩ := C4_base_pay_policy_a.2.2.1 [(100, 7)] 150 (100, 7)
    (List.mem_singleton_self _) (by norm_num)
  rw [List.mem_singleton] at hu
  rw [heq, hu]

theorem pyInt_nonneg {q : ℚ} (h : 0 ≤ q) : 0 ≤ pyInt q := by
  rw [pyInt_eq_floor h]
  exact Int.le_floor.mpr (by exact_mod_cast h)

theorem night_hours_sum_nonneg (records : List ShiftRecord) :
    0 ≤ (records.map (fun r => (computeShiftMetrics r).1)).sum :=
  List.sum_nonneg fun x hx => by
    obtain ⟨r, _, rfl⟩ := List.mem_map.mp hx
    exact metrics_night_nonneg r

theorem over_hours_sum_nonneg (records : List ShiftRecord) :
    0 ≤ (records.map (fun r => (computeShiftMetrics r).2)).sum :=
  List.sum_nonneg fun x hx => by
    obtain ⟨r, _, rfl⟩ := List.mem_map.mp hx
    exact metrics_over_nonneg r

theorem total_pay_nonneg (records : List ShiftRecord) (tiers : List (ℕ × ℕ)) :
    0 ≤ (computeBreakdown records tiers).total_pay := by
  have h1 : (0 : ℤ) ≤
      pyInt ((records.map (fun r => (computeShiftMetrics r).1)).sum * 600) :=
    pyInt_nonneg (mul_nonneg (night_hours_sum_nonneg records) (by norm_num))
  have h2 : (0 : ℤ) ≤
      pyInt ((records.map (fun r => (computeShiftMetrics r).2)).sum * 250) :=
    pyInt_nonneg (mul_nonneg (over_hours_sum_nonneg records) (by norm_num))
  have h3 : (0 : ℤ) ≤
      (selectBasePay tiers ((records.map (·.revenue)).sum) : ℤ) :=
    Int.ofNat_nonneg _
  show 0 ≤ (selectBasePay tiers ((records.map (·.revenue)).sum) : ℤ)
      + pyInt ((records.map (fun r => (computeShiftMetrics r).1)).sum * 600)
      + pyInt ((records.map (fun r => (computeShiftMetrics r).2)).sum * 250)
  omega

theorem deduction_eq_floor (tp : ℤ) (h : 0 ≤ tp) :
    pyInt ((tp : ℚ) * (0.115 : ℚ)) = ⌊(tp : ℚ) * (115 / 1000)⌋ := by
  rw [pyInt_eq_floor (mul_nonneg (by exact_mod_cast h) (by norm_num))]
  norm_num

theorem take_home_nonneg_of (tp : ℤ) (h : 0 ≤ tp) :
    0 ≤ tp - pyInt ((tp : ℚ) * (0.115 : ℚ)) := by
  rw [pyInt_eq_floor (mul_nonneg (by exact_mod_cast h) (by norm_num))]
  have hq : (0 : ℚ) ≤ (tp : ℚ) := by exact_mod_cast h
  have hle : (tp : ℚ) * (0.115 : ℚ) ≤ (tp : ℚ) := by nlinarith
  have h2 := Int.floor_le_floor hle
  rw [Int.floor_intCast] at h2
  omega

/-- C5: every monetary figure of the breakdown is an independent floor:
night premium = ⌊night hours × 600⌋, overtime premium =
⌊overtime hours × 250⌋, gross = base + night premium + overtime premium,
deduction = ⌊gross × 0.115⌋, take-home = gross − deduction, and a
non-negative gross leaves a non-negative take-home. -/
theorem C5_monetary_floors (records : List ShiftRecord)
    (tiers : List (ℕ × ℕ)) (bd : PayBreakdown)
    (hbd : bd = computeBreakdown records tiers) :
    bd.night_pay = ⌊bd.night_hours * 600⌋ ∧
    bd.over_pay = ⌊bd.over_hours * 250⌋ ∧
    bd.total_pay = (bd.base_pay : ℤ) + bd.night_pay + bd.over_pay ∧
    bd.deduction = ⌊(bd.total_pay : ℚ) * (115 / 1000)⌋ ∧
    bd.take_home = bd.total_pay - bd.deduction ∧
    (0 ≤ bd.total_pay → 0 ≤ bd.take_home) := by
  subst hbd
  refine ⟨pyInt_eq_floor (mul_nonneg (night_hours_sum_nonneg records) (by norm_num)),
    pyInt_eq_floor (mul_nonneg (over_hours_sum_nonneg records) (by norm_num)),
    rfl, ?_, rfl, ?_⟩
  · exact deduction_eq_floor _ (total_pay_nonneg records tiers)
  · intro htp
    exact take_home_nonneg_of _ htp

/-- C5 witness: the empty record set with the empty tier table has
non-negative gross pay and non-negative take-home pay. -/
theorem C5_witness :
    0 ≤ (computeBreakdown [] []).total_pay ∧
    0 ≤ (computeBreakdown [] []).take_home := by
  have h0 : (0 : ℤ) ≤ (computeBreakdown [] []).total_pay :=
    total_pay_nonneg [] []
  exact ⟨h0, (C5_monetary_floors [] [] (computeBreakdown [] []) rfl).2.2.2.2.2 h0⟩

/-- C8: loading degrades to the empty record set when the file is
unreadable or a revenue cell fails integer coercion; a successful load
returns exactly the rows restricted to the four fixed columns, with
revenue coerced to an integer. -/
theorem C8_load_error_degrades :
    load_entries none = [] ∧
    (∀ rows : List CsvRow,
      parseRows rows = none → load_entries (some rows) = []) ∧
    (∀ (rows : List CsvRow) (f : CsvRow → ℤ),
      (∀ row ∈ rows, astypeInt row.revenue = some (f row)) →
      load_entries (some rows) =
        rows.map fun row => ⟨row.date, f row, row.clockOut, row.clockIn⟩) := by
  refine ⟨rfl, ?_, ?_⟩
  · intro rows h
    simp [load_entries, h]
  · intro rows f h
    have hm : ∀ rows : List CsvRow,
        (∀ row ∈ rows, astypeInt row.revenue = some (f row)) →
        parseRows rows =
          some (rows.map fun row => ⟨row.date, f row, row.clockOut, row.clockIn⟩) := by
      intro rows
      induction rows with
      | nil => intro _; rfl
      | cons hd tl ih =>
        intro hall
        have hhd := hall hd (List.mem_cons_self _ _)
        have htl := ih fun r hr => hall r (List.mem_cons_of_mem _ hr)
        simp [parseRows, parseRow, hhd, htl]
    simp [load_entries, hm rows h]

/-- C8 witness: a one-row file with revenue "50000" and an extra column
loads as the single four-column entry with revenue 50000; a one-row file
whose revenue cell is "abc" degrades to the empty record set. -/
theorem C8_witness :
    load_entries (some [⟨"2024-06-01", "50000", "17:00", "03:30", ["extra"]⟩]) =
      [⟨"2024-06-01", 50000, "17:00", "03:30"⟩] ∧
    load_entries (some [⟨"2024-06-01", "abc", "17:00", "03:30", []⟩]) = [] := by
  constructor
  · have h := C8_load_error_degrades.2.2
      [⟨"2024-06-01", "50000", "17:00", "03:30", ["extra"]⟩] (fun _ => 50000)
      (by
        intro row hr
        rw [List.mem_singleton] at hr
        subst hr
        decide)
    simpa using h
  · exact C8_load_error_degrades.2.1 [⟨"2024-06-01", "abc", "17:00", "03:30", []⟩]
      (by decide)

/-- C9: when at least one record's date lies in the closed period, closing
archives exactly the in-period records and afterwards the entry list is
the original list with precisely those records removed: the remainder is a
sublist of the original (relative order and contents preserved), the two
parts characterize membership by the period test, and their lengths sum to
the original length. -/
theorem C9_close_partitions (entries : List ShiftRecord)
    (p_start p_end : Date)
    (h : ∃ r ∈ entries, inPeriod p_start p_end r = true) :
    do_close entries p_start p_end =
      some (entries.filter (inPeriod p_start p_end),
            entries.filter (fun r => ! inPeriod p_start p_end r)) ∧
    (entries.filter fun r => ! inPeriod p_start p_end r).Sublist entries ∧
    (∀ r, r ∈ entries.filter (inPeriod p_start p_end) ↔
        r ∈ entries ∧ inPeriod p_start p_end r = true) ∧
    (∀ r, r ∈ entries.filter (fun r => ! inPeriod p_start p_end r) ↔
        r ∈ entries ∧ inPeriod p_start p_end r = false) ∧
    entries.length = (entries.filter (inPeriod p_start p_end)).length +
        (entries.filter fun r => ! inPeriod p_start p_end r).length := by
  obtain ⟨r0, hr0, hp0⟩ := h
  have hne : entries.filter (inPeriod p_start p_end) ≠ [] :=
    List.ne_nil_of_mem (List.mem_filter.mpr ⟨hr0, hp0⟩)
  refine ⟨?_, List.filter_sublist _, ?_, ?_, ?_⟩
  · unfold do_close
    rw [if_neg (by simpa [List.isEmpty_iff] using hne)]
  · intro r
    exact List.mem_filter
  · intro r
    simp [List.mem_filter]
  · exact List.length_eq_length_filter_add _

/-- C9 witness: closing the period [2024-06-01, 2024-06-01] on a one-entry
list whose entry is dated 2024-06-01 archives that entry and leaves the
list empty. -/
theorem C9_witness :
    do_close [⟨⟨2024, 6, 1⟩, 50000, ⟨17, 0⟩, ⟨3, 30⟩⟩] ⟨2024, 6, 1⟩ ⟨2024, 6, 1⟩ =
      some ([⟨⟨2024, 6, 1⟩, 50000, ⟨17, 0⟩, ⟨3, 30⟩⟩], []) := by
  have h1 := (C9_close_partitions [⟨⟨2024, 6, 1⟩, 50000, ⟨17, 0⟩, ⟨3, 30⟩⟩]
    ⟨2024, 6, 1⟩ ⟨2024, 6, 1⟩
    ⟨⟨⟨2024, 6, 1⟩, 50000, ⟨17, 0⟩, ⟨3, 30⟩⟩, List.mem_singleton_self _, by decide⟩).1
  have he : inPeriod ⟨2024, 6, 1⟩ ⟨2024, 6, 1⟩ ⟨⟨2024, 6, 1⟩, 50000, ⟨17, 0⟩, ⟨3, 30⟩⟩ = true := by
    decide
  simpa [List.filter_cons, he] using h1

/-- C10: over the built-in tier table, base pay is monotone non-decreasing
in total revenue; it is 0 below the lowest threshold 400000 and 508712
from 900000 upward. -/
theorem C10_base_pay_monotone :
    (∀ r1 r2 : ℕ, r1 ≤ r2 →
      selectBasePay rate_table r1 ≤ selectBasePay rate_table r2) ∧
    (∀ r : ℕ, r < 400000 → selectBasePay rate_table r = 0) ∧
    (∀ r : ℕ, 900000 ≤ r → selectBasePay rate_table r = 508712) := by
  refine ⟨?_, ?_, ?_⟩
  · intro r1 r2 h
    unfold selectBasePay
    rw [sortTiersDesc_rate_table]
    exact basePayLoop_monotone rate_table (by decide) r1 r2 h
  · intro r h
    unfold selectBasePay
    rw [sortTiersDesc_rate_table]
    refine basePayLoop_of_none_qualify r rate_table fun t ht => ?_
    simp only [rate_table] at ht
    fin_cases ht <;> simp <;> omega
  · intro r h
    rw [selectBasePay_rate_table, if_pos h]

/-- C10 witness: 399999 yen of revenue earn base pay 0, 900001 earn
508712, and base pay at 100 is at most base pay at 920000. -/
theorem C10_witness :
    selectBasePay rate_table 399999 = 0 ∧
    selectBasePay rate_table 900001 = 508712 ∧
    selectBasePay rate_table 100 ≤ selectBasePay rate_table 920000 :=
  ⟨C10_base_pay_monotone.2.1 399999 (by norm_num),
   C10_base_pay_monotone.2.2 900001 (by norm_num),
   C10_base_pay_monotone.1 100 920000 (by norm_num)⟩

/-- C3 witness: a tick starting at 04:45 (285 minutes) against an interval
end of 300 minutes contributes its full clamped length, 15 minutes. -/
theorem C3_witness : tickContrib (4 * 60 + 45) 300 = 15 := by
  have h := C3_night_tick_sampling.2.2.1 (4 * 60 + 45) 300 (by decide)
  simpa using h

end SalaryApp
